import Mathlib

/-!
Shallow embedding of the surface-mesh generation pipeline of
`src/examples/plot/plot-layer/surface-layer.js` (SurfaceLayer).

JavaScript numbers are modelled as `JSNum`: either a finite rational or one
of the non-finite values `nan`, `posInf`, `negInf`.  Values that the source
manifestly keeps finite (normalized grid coordinates, the contents of the
position buffer after sanitization, scale outputs) are modelled as `ℚ`.
Typed-array stores (`Uint8ClampedArray`) are modelled by `clampByte`, which
performs the ECMAScript ToUint8Clamp conversion: clamp to `[0, 255]` and
round to the nearest integer with ties to even.
-/

/-- A JavaScript number: a finite rational or one of the non-finite values. -/
inductive JSNum where
  | num (q : ℚ)
  | nan
  | posInf
  | negInf
deriving DecidableEq

/-- JavaScript's `isFinite`. -/
def JSNum.isFinite : JSNum → Bool
  | .num _ => true
  | _ => false

/-- The sanitization step of `calculatePositions`: a non-finite component is
replaced by `0` (`if (!isXFinite) { x = 0; }`). -/
def JSNum.sanitize : JSNum → ℚ
  | .num q => q
  | _ => 0

/-- JavaScript's `Math.min` on our number model. -/
def jsMin : JSNum → JSNum → JSNum
  | .nan, _ => .nan
  | _, .nan => .nan
  | .negInf, _ => .negInf
  | _, .negInf => .negInf
  | .posInf, b => b
  | a, .posInf => a
  | .num a, .num b => .num (min a b)

/-- JavaScript's `Math.max` on our number model. -/
def jsMax : JSNum → JSNum → JSNum
  | .nan, _ => .nan
  | _, .nan => .nan
  | .posInf, _ => .posInf
  | _, .posInf => .posInf
  | .negInf, b => b
  | a, .negInf => a
  | .num a, .num b => .num (max a b)

/-- Round half to even on the rationals (the rounding used by
`Uint8ClampedArray` stores, ECMAScript ToUint8Clamp). -/
def roundHalfEven (q : ℚ) : ℤ :=
  if q - ⌊q⌋ < 1 / 2 then ⌊q⌋
  else if 1 / 2 < q - ⌊q⌋ then ⌊q⌋ + 1
  else if ⌊q⌋ % 2 = 0 then ⌊q⌋ else ⌊q⌋ + 1

/-- ECMAScript ToUint8Clamp for a finite value: clamp to `[0, 255]`, then
round to the nearest integer, ties to even. -/
def clampByte (q : ℚ) : ℕ :=
  if q ≤ 0 then 0
  else if 255 ≤ q then 255
  else (roundHalfEven q).toNat

/-- ToUint8Clamp on a possibly non-finite number: `NaN` stores 0,
`Infinity` stores 255, `-Infinity` stores 0. -/
def jsToByte : JSNum → ℕ
  | .num q => clampByte q
  | .nan => 0
  | .posInf => 255
  | .negInf => 0

/-!
## PickingColorCodec: `encodePickingColor` / `decodePickingColor`
-/

/-- Source function `encodePickingColor(i)` (surface-layer.js line 116): decompose the linear
vertex index `i` into `xIndex = i % uCount`, `yIndex = (i - xIndex) / uCount`
and return `[xIndex / (uCount - 1) * 255, yIndex / (vCount - 1) * 255, 1]`.
The returned components are the raw (unrounded) rationals; rounding to bytes
happens only when `calculatePickingColors` stores them into the
`Uint8ClampedArray`. -/
def encodePickingColor (uCount vCount : ℕ) (i : ℕ) : ℚ × ℚ × ℚ :=
  let xIndex : ℕ := i % uCount
  let yIndex : ℚ := ((i : ℚ) - (xIndex : ℚ)) / (uCount : ℚ)
  ((xIndex : ℚ) / ((uCount : ℚ) - 1) * 255,
   yIndex / ((vCount : ℚ) - 1) * 255,
   1)

/-- Result of `decodePickingColor`: the code returns `-1` (here `noHit`) for
the background sentinel, and the fractional pair `[r / 255, g / 255]`
otherwise. -/
inductive PickResult where
  | noHit
  | hit (u v : ℚ)
deriving DecidableEq

/-- Source function `decodePickingColor([r, g, b])` (surface-layer.js line 129): if `b === 0`
return `-1`, else return `[r / 255, g / 255]`. -/
def decodePickingColor (c : ℚ × ℚ × ℚ) : PickResult :=
  if c.2.2 = 0 then PickResult.noHit
  else PickResult.hit (c.1 / 255) (c.2.1 / 255)

/-!
## GridTopologyBuilder: `calculateIndices`
-/

/-- Source function `calculateIndices` (surface-layer.js line 149): for `xIndex` in
`[0, uCount-1)` (outer loop) and `yIndex` in `[0, vCount-1)` (inner loop),
with `i0 = yIndex * uCount + xIndex`, `i1 = i0 + 1`, `i2 = i0 + uCount`,
`i3 = i2 + 1`, append the six indices `i0, i2, i1, i1, i2, i3`. -/
def calculateIndices (uCount vCount : ℕ) : List ℕ :=
  (List.range (uCount - 1)).flatMap fun xIndex =>
    (List.range (vCount - 1)).flatMap fun yIndex =>
      let i0 := yIndex * uCount + xIndex
      let i1 := i0 + 1
      let i2 := i0 + uCount
      let i3 := i2 + 1
      [i0, i2, i1, i1, i2, i3]

/-!
## PositionSampler: `calculatePositions`
-/

/-- One vertex record of the positions buffer (4 floats per vertex, in
storage order): `value[4i] = x`, `value[4i+1] = z` (the y/z swap),
`value[4i+2] = y`, `value[4i+3]` the validity flag (0 valid, 1 invalid). -/
structure PosEntry where
  s0 : ℚ
  s1 : ℚ
  s2 : ℚ
  flag : ℚ
deriving DecidableEq

/-- The `{min, max}` object passed to a scale factory.  The accumulators
start at `Infinity` / `-Infinity`, hence `JSNum` fields. -/
structure Extent where
  min : JSNum
  max : JSNum
deriving DecidableEq

/-- Which scale factory was invoked (for the factory-call log). -/
inductive Axis where
  | X
  | Y
  | Z
deriving DecidableEq

/-- The pass-1 body of `calculatePositions` for grid position
`(uIndex, vIndex)`: compute `u`, `v`, call `getPosition`, sanitize each
non-finite axis to 0, store `(x, z, y)` (the y/z swap) plus the validity
flag (`0` iff all three axes were finite). -/
def pass1Entry (getPosition : ℚ → ℚ → JSNum × JSNum × JSNum) (uCount vCount : ℕ)
    (uIndex vIndex : ℕ) : PosEntry :=
  let u : ℚ := (uIndex : ℚ) / ((uCount : ℚ) - 1)
  let v : ℚ := (vIndex : ℚ) / ((vCount : ℚ) - 1)
  let p := getPosition u v
  { s0 := p.1.sanitize
    s1 := p.2.2.sanitize
    s2 := p.2.1.sanitize
    flag := if p.1.isFinite && p.2.1.isFinite && p.2.2.isFinite then 0 else 1 }

/-- Pass 1 of `calculatePositions`: the nested loops (`vIndex` outer,
`uIndex` inner) filling the positions buffer. -/
def pass1 (getPosition : ℚ → ℚ → JSNum × JSNum × JSNum) (uCount vCount : ℕ) :
    List PosEntry :=
  (List.range vCount).flatMap fun vIndex =>
    (List.range uCount).map fun uIndex =>
      pass1Entry getPosition uCount vCount uIndex vIndex

/-- The running min/max accumulation of `calculatePositions`: the
accumulator starts at `Infinity` (resp. `-Infinity`) and each (sanitized,
hence finite) value is folded in with `Math.min` (resp. `Math.max`). -/
def axisExtent (values : List ℚ) : Extent :=
  { min := values.foldl (fun acc q => jsMin acc (JSNum.num q)) JSNum.posInf
    max := values.foldl (fun acc q => jsMax acc (JSNum.num q)) JSNum.negInf }

/-- The pass-2 body of `calculatePositions`: a vertex whose validity flag is
falsy (`0`) has its three stored coordinates overwritten with the scaled
values (`xScale` on slot 0, `zScale` on slot 1, `yScale` on slot 2); a
flagged vertex is left untouched. -/
def pass2Entry (xScale yScale zScale : ℚ → ℚ) (e : PosEntry) : PosEntry :=
  if e.flag = 0 then
    { s0 := xScale e.s0, s1 := zScale e.s1, s2 := yScale e.s2, flag := e.flag }
  else e

/-- Source function `calculatePositions` (surface-layer.js line 188): pass 1 samples and
sanitizes every vertex while accumulating the per-axis extents; then the
three scale factories are each invoked once with their axis's `{min, max}`
(the second component of the result is that factory-call log, in source
order x, y, z); pass 2 rescales the vertices whose validity flag is 0.
Note the y extent is accumulated from stored slot 2 and the z extent from
stored slot 1 (the storage swap). -/
def calculatePositions (getPosition : ℚ → ℚ → JSNum × JSNum × JSNum)
    (uCount vCount : ℕ) (getXScale getYScale getZScale : Extent → ℚ → ℚ) :
    List PosEntry × List (Axis × Extent) :=
  let entries := pass1 getPosition uCount vCount
  let xExt := axisExtent (entries.map PosEntry.s0)
  let yExt := axisExtent (entries.map PosEntry.s2)
  let zExt := axisExtent (entries.map PosEntry.s1)
  let xScale := getXScale xExt
  let yScale := getYScale yExt
  let zScale := getZScale zExt
  (entries.map (pass2Entry xScale yScale zScale),
   [(Axis.X, xExt), (Axis.Y, yExt), (Axis.Z, zExt)])

/-- The positions buffer `calculatePositions` leaves in
`attribute.value`. -/
def positionsBuffer (getPosition : ℚ → ℚ → JSNum × JSNum × JSNum)
    (uCount vCount : ℕ) (getXScale getYScale getZScale : Extent → ℚ → ℚ) :
    List PosEntry :=
  (calculatePositions getPosition uCount vCount getXScale getYScale getZScale).1

/-- The `getPosition` sample for linear vertex index `i`: the buffer is
filled with `vIndex` outer and `uIndex` inner, so vertex `i` has
`uIndex = i % uCount` and `vIndex = i / uCount`. -/
def sampleAt (getPosition : ℚ → ℚ → JSNum × JSNum × JSNum) (uCount vCount : ℕ)
    (i : ℕ) : JSNum × JSNum × JSNum :=
  getPosition (((i % uCount : ℕ) : ℚ) / ((uCount : ℚ) - 1))
    (((i / uCount : ℕ) : ℚ) / ((vCount : ℚ) - 1))

/-!
## ColorMapper: `calculateColors`
-/

/-- One vertex record of the colors buffer (`Uint8ClampedArray`, 4 bytes per
vertex). -/
structure ColorEntry where
  r : ℕ
  g : ℕ
  b : ℕ
  a : ℕ
deriving DecidableEq

/-- The store step of `calculateColors` for one vertex: the first three
components go through the `Uint8ClampedArray` conversion; the alpha slot
stores 255 when `isNaN(color[3])` and the converted value otherwise. -/
def colorEntryOf (c : JSNum × JSNum × JSNum × JSNum) : ColorEntry :=
  { r := jsToByte c.1
    g := jsToByte c.2.1
    b := jsToByte c.2.2.1
    a := if c.2.2.2 = JSNum.nan then 255 else jsToByte c.2.2.2 }

/-- Source function `calculateColors` (surface-layer.js line 255): for each vertex `i` of the
positions buffer, call `getColor(positions[4i], positions[4i+2],
positions[4i+1])` — stored slot 0, then slot 2, then slot 1, undoing the
y/z storage swap — and store the clamped bytes.  The second component of
the result is the log of the argument triples passed to `getColor`, in
vertex order. -/
def calculateColors (getColor : ℚ → ℚ → ℚ → JSNum × JSNum × JSNum × JSNum)
    (positions : List PosEntry) : List ColorEntry × List (ℚ × ℚ × ℚ) :=
  (positions.map fun e => colorEntryOf (getColor e.s0 e.s2 e.s1),
   positions.map fun e => (e.s0, e.s2, e.s1))

/-!
## `calculatePickingColors`
-/

/-- Source function `calculatePickingColors` (surface-layer.js line 275): for each vertex
`i < vertexCount = uCount * vCount`, store `encodePickingColor(i)` into the
`Uint8ClampedArray` (3 bytes per vertex). -/
def calculatePickingColors (uCount vCount : ℕ) : List (ℕ × ℕ × ℕ) :=
  (List.range (uCount * vCount)).map fun i =>
    let c := encodePickingColor uCount vCount i
    (clampByte c.1, clampByte c.2.1, clampByte c.2.2)

/-!
## AttributeCoordinator: `updateState` and attribute invalidation
-/

/-- The four attributes registered in `initializeState`
(surface-layer.js line 48). -/
inductive Attr where
  | indices
  | positions
  | colors
  | pickingColors
deriving DecidableEq

/-- The accessor props an attribute declares (surface-layer.js line 48):
`indices` declares none, `positions` declares `getPosition`, `colors`
declares `getPosition` and `getColor`, `pickingColors` declares none. -/
inductive Accessor where
  | getPosition
  | getColor
deriving DecidableEq

def attrAccessors : Attr → List Accessor
  | .indices => []
  | .positions => [.getPosition]
  | .colors => [.getPosition, .getColor]
  | .pickingColors => []

/-- The props `updateState` compares (surface-layer.js line 63). -/
structure SLProps where
  uCount : ℕ
  vCount : ℕ
deriving DecidableEq

/-- Source method `updateState`: `invalidateAll` is called exactly when `uCount` or
`vCount` differs from its previous value. -/
def dimsChanged (oldProps props : SLProps) : Bool :=
  decide (oldProps.uCount ≠ props.uCount) || decide (oldProps.vCount ≠ props.vCount)

/-- Modelled from the spec: the host framework's attribute manager (deck.gl's
AttributeManager, whose source is not under src/, only its use in
`initializeState`/`updateState` is).  Per the spec (section 4.5),
`invalidateAll` marks every attribute dirty; an accessor-only change marks
dirty exactly the attributes whose declared accessor list contains a changed
accessor; a dirty attribute is fully recomputed by its `update` function and
a clean attribute's buffer is left untouched. -/
def dirtyAfterUpdate (oldProps props : SLProps) (changedAccessors : List Accessor)
    (a : Attr) : Bool :=
  if dimsChanged oldProps props then true
  else (attrAccessors a).any fun acc => changedAccessors.contains acc

/-!
## General list helpers
-/

theorem range_flatMap_map {α : Type} (f : ℕ → ℕ → α) (n m : ℕ) :
    ((List.range n).flatMap fun v => (List.range m).map (f v)) =
      (List.range (n * m)).map fun i => f (i / m) (i % m) := by
  induction n with
  | zero => simp
  | succ n ih =>
    rw [List.range_succ, List.flatMap_append, ih, Nat.succ_mul, List.range_add,
      List.map_append]
    congr 1
    simp only [List.flatMap_cons, List.flatMap_nil, List.append_nil, List.map_map]
    refine List.map_congr_left fun j hj => ?_
    have hjm : j < m := List.mem_range.mp hj
    have h1 : (n * m + j) / m = n := by
      rw [mul_comm n m, Nat.mul_add_div (by omega), Nat.div_eq_of_lt hjm]
      omega
    have h2 : (n * m + j) % m = j := by
      rw [mul_comm n m, Nat.mul_add_mod, Nat.mod_eq_of_lt hjm]
    simp [Function.comp, h1, h2]

theorem length_flatMap_const {α : Type} (l : List ℕ) (f : ℕ → List α) (c : ℕ)
    (hf : ∀ k, (f k).length = c) : (l.flatMap f).length = l.length * c := by
  induction l with
  | nil => simp
  | cons a t ih =>
    simp only [List.flatMap_cons, List.length_append, hf, ih, List.length_cons]
    ring

theorem flatMap_range'_drop {α : Type} (f : ℕ → List α) (c : ℕ)
    (hf : ∀ k, (f k).length = c) :
    ∀ (j n s : ℕ), j < n →
      ((List.range' s n).flatMap f).drop (j * c) =
        f (s + j) ++ (List.range' (s + j + 1) (n - (j + 1))).flatMap f := by
  intro j
  induction j with
  | zero =>
    intro n s hn
    match n, hn with
    | n + 1, _ =>
      simp [List.range'_succ, List.flatMap_cons]
  | succ j ih =>
    intro n s hn
    match n, hn with
    | n + 1, hn =>
      rw [List.range'_succ, List.flatMap_cons,
        show (j + 1) * c = c + j * c by ring, ← List.drop_drop,
        List.drop_left' (hf s), ih n (s + 1) (by omega)]
      have e1 : s + 1 + j = s + (j + 1) := by omega
      have e3 : n - (j + 1) = n + 1 - (j + 1 + 1) := by omega
      rw [e1, e3]

theorem drop_append_le {α : Type} (l₁ l₂ : List α) (n : ℕ) (h : n ≤ l₁.length) :
    (l₁ ++ l₂).drop n = l₁.drop n ++ l₂ := by
  induction l₁ generalizing n with
  | nil => simp at h; simp [h]
  | cons a t ih =>
    cases n with
    | zero => simp
    | succ n => simpa using ih n (by simpa using h)

/-!
## Claim theorems
-/

/-- Claim C5: `decodePickingColor (r, g, 0)` returns the "no hit" sentinel
for every `r`, `g`, and `encodePickingColor` always returns third component
`1` (in particular never `0`), so an encoded cell is always distinguishable
from background. -/
theorem decode_sentinel_encode_nonzero :
    (∀ r g : ℚ, decodePickingColor (r, g, 0) = PickResult.noHit) ∧
    ∀ uCount vCount i : ℕ, (encodePickingColor uCount vCount i).2.2 = 1 := by
  constructor
  · intro r g
    simp [decodePickingColor]
  · intro uCount vCount i
    simp [encodePickingColor]

/-- Rewriting of `calculateIndices` with its loops written as `range'` lists and the let
bindings expanded, for index arithmetic on the emitted buffer. -/
theorem calculateIndices_eq (uCount vCount : ℕ) :
    calculateIndices uCount vCount =
      (List.range' 0 (uCount - 1)).flatMap fun xIndex =>
        (List.range' 0 (vCount - 1)).flatMap fun yIndex =>
          [yIndex * uCount + xIndex, yIndex * uCount + xIndex + uCount,
           yIndex * uCount + xIndex + 1, yIndex * uCount + xIndex + 1,
           yIndex * uCount + xIndex + uCount,
           yIndex * uCount + xIndex + uCount + 1] := by
  calc calculateIndices uCount vCount
      = (List.range (uCount - 1)).flatMap fun xIndex =>
          (List.range (vCount - 1)).flatMap fun yIndex =>
            [yIndex * uCount + xIndex, yIndex * uCount + xIndex + uCount,
             yIndex * uCount + xIndex + 1, yIndex * uCount + xIndex + 1,
             yIndex * uCount + xIndex + uCount,
             yIndex * uCount + xIndex + uCount + 1] := rfl
    _ = _ := by rw [List.range_eq_range' (uCount - 1), List.range_eq_range' (vCount - 1)]

/-- Claim C2: for `uCount, vCount ≥ 2` the index buffer produced by
`calculateIndices` has exactly `(uCount-1)*(vCount-1)*6` entries, and every
emitted index lies in `[0, uCount*vCount)`. -/
theorem calculateIndices_length_bounds (uCount vCount : ℕ)
    (hu : 2 ≤ uCount) (hv : 2 ≤ vCount) :
    (calculateIndices uCount vCount).length = (uCount - 1) * (vCount - 1) * 6 ∧
    ∀ a ∈ calculateIndices uCount vCount, a < uCount * vCount := by
  have hinner : ∀ x : ℕ,
      (((List.range' 0 (vCount - 1)).flatMap fun yIndex =>
        [yIndex * uCount + x, yIndex * uCount + x + uCount,
         yIndex * uCount + x + 1, yIndex * uCount + x + 1,
         yIndex * uCount + x + uCount,
         yIndex * uCount + x + uCount + 1]).length) = (vCount - 1) * 6 := by
    intro x
    have h := length_flatMap_const (List.range' 0 (vCount - 1))
      (fun yIndex =>
        [yIndex * uCount + x, yIndex * uCount + x + uCount,
         yIndex * uCount + x + 1, yIndex * uCount + x + 1,
         yIndex * uCount + x + uCount,
         yIndex * uCount + x + uCount + 1]) 6 (fun y => rfl)
    simpa using h
  constructor
  · rw [calculateIndices_eq]
    rw [length_flatMap_const (List.range' 0 (uCount - 1))
      (fun xIndex =>
        (List.range' 0 (vCount - 1)).flatMap fun yIndex =>
          [yIndex * uCount + xIndex, yIndex * uCount + xIndex + uCount,
           yIndex * uCount + xIndex + 1, yIndex * uCount + xIndex + 1,
           yIndex * uCount + xIndex + uCount,
           yIndex * uCount + xIndex + uCount + 1]) ((vCount - 1) * 6) hinner]
    simp [List.length_range']
    ring
  · intro a ha
    rw [calculateIndices_eq] at ha
    simp only [List.mem_flatMap, List.mem_range'_1, List.mem_cons,
      List.not_mem_nil, or_false] at ha
    obtain ⟨x, hx, y, hy, ha⟩ := ha
    have key : y * uCount + uCount ≤ (vCount - 1) * uCount := by
      have h1 : y + 1 ≤ vCount - 1 := by omega
      calc y * uCount + uCount = (y + 1) * uCount := by ring
        _ ≤ (vCount - 1) * uCount := mul_le_mul_right' h1 uCount
    have key2 : (vCount - 1) * uCount + uCount = uCount * vCount := by
      have h1 : vCount - 1 + 1 = vCount := by omega
      calc (vCount - 1) * uCount + uCount = (vCount - 1 + 1) * uCount := by ring
        _ = vCount * uCount := by rw [h1]
        _ = uCount * vCount := mul_comm _ _
    rcases ha with rfl | rfl | rfl | rfl | rfl | rfl <;> omega

/-- Claim C3: for every quad `(uIndex, vIndex)` with `uIndex < uCount-1` and
`vIndex < vCount-1`, the six entries of the index buffer at that quad's slot
(the quads are emitted with `uIndex` outer and `vIndex` inner, so the quad's
six slots start at `(uIndex*(vCount-1) + vIndex)*6`) are exactly the two
triangles `(i0, i2, i1)` and `(i1, i2, i3)` in that order, where
`i0 = vIndex*uCount + uIndex`, `i1 = i0+1`, `i2 = i0+uCount`,
`i3 = i2+1`. -/
theorem quad_two_triangles (uCount vCount uIndex vIndex : ℕ)
    (hu : uIndex < uCount - 1) (hv : vIndex < vCount - 1) :
    ((calculateIndices uCount vCount).drop
        ((uIndex * (vCount - 1) + vIndex) * 6)).take 6 =
      [vIndex * uCount + uIndex,
       vIndex * uCount + uIndex + uCount,
       vIndex * uCount + uIndex + 1,
       vIndex * uCount + uIndex + 1,
       vIndex * uCount + uIndex + uCount,
       vIndex * uCount + uIndex + uCount + 1] := by
  have hinner : ∀ x : ℕ,
      (((List.range' 0 (vCount - 1)).flatMap fun yIndex =>
        [yIndex * uCount + x, yIndex * uCount + x + uCount,
         yIndex * uCount + x + 1, yIndex * uCount + x + 1,
         yIndex * uCount + x + uCount,
         yIndex * uCount + x + uCount + 1]).length) = (vCount - 1) * 6 := by
    intro x
    have h := length_flatMap_const (List.range' 0 (vCount - 1))
      (fun yIndex =>
        [yIndex * uCount + x, yIndex * uCount + x + uCount,
         yIndex * uCount + x + 1, yIndex * uCount + x + 1,
         yIndex * uCount + x + uCount,
         yIndex * uCount + x + uCount + 1]) 6 (fun y => rfl)
    simpa using h
  rw [calculateIndices_eq,
    show (uIndex * (vCount - 1) + vIndex) * 6 =
      uIndex * ((vCount - 1) * 6) + vIndex * 6 by ring,
    ← List.drop_drop,
    flatMap_range'_drop
      (fun xIndex =>
        (List.range' 0 (vCount - 1)).flatMap fun yIndex =>
          [yIndex * uCount + xIndex, yIndex * uCount + xIndex + uCount,
           yIndex * uCount + xIndex + 1, yIndex * uCount + xIndex + 1,
           yIndex * uCount + xIndex + uCount,
           yIndex * uCount + xIndex + uCount + 1]) ((vCount - 1) * 6)
      hinner uIndex (uCount - 1) 0 hu]
  simp only [Nat.zero_add]
  rw [drop_append_le _ _ _
    (by rw [hinner]; exact mul_le_mul_right' (by omega) 6)]
  rw [flatMap_range'_drop
      (fun yIndex =>
        [yIndex * uCount + uIndex, yIndex * uCount + uIndex + uCount,
         yIndex * uCount + uIndex + 1, yIndex * uCount + uIndex + 1,
         yIndex * uCount + uIndex + uCount,
         yIndex * uCount + uIndex + uCount + 1]) 6
      (fun y => rfl) vIndex (vCount - 1) 0 hv]
  simp only [Nat.zero_add]
  rw [List.append_assoc]
  exact List.take_left' rfl

/-- Witness for C2 at `uCount = 3`, `vCount = 3`. -/
theorem calculateIndices_length_bounds_witness :
    (calculateIndices 3 3).length = (3 - 1) * (3 - 1) * 6 ∧
    ∀ a ∈ calculateIndices 3 3, a < 3 * 3 :=
  calculateIndices_length_bounds 3 3 (by decide) (by decide)

/-- Witness for C3 at `uCount = 3`, `vCount = 3`, quad `(1, 1)`. -/
theorem quad_two_triangles_witness :
    ((calculateIndices 3 3).drop ((1 * (3 - 1) + 1) * 6)).take 6 =
      [1 * 3 + 1, 1 * 3 + 1 + 3, 1 * 3 + 1 + 1,
       1 * 3 + 1 + 1, 1 * 3 + 1 + 3, 1 * 3 + 1 + 3 + 1] :=
  quad_two_triangles 3 3 1 1 (by decide) (by decide)

/-- Casting helper for the index decomposition of `encodePickingColor`:
the exact rational `(i - i % uCount) / uCount` is the integer row index
`i / uCount`. -/
theorem yIndex_cast (uCount i : ℕ) (hu : 0 < uCount) :
    ((i : ℚ) - ((i % uCount : ℕ) : ℚ)) / (uCount : ℚ) = ((i / uCount : ℕ) : ℚ) := by
  have hdm : uCount * (i / uCount) + i % uCount = i := Nat.div_add_mod i uCount
  have hc : ((uCount : ℚ)) * ((i / uCount : ℕ) : ℚ) + ((i % uCount : ℕ) : ℚ) = (i : ℚ) := by
    exact_mod_cast congrArg (fun n : ℕ => (n : ℚ)) hdm
  have hq : (uCount : ℚ) ≠ 0 := by
    exact_mod_cast Nat.pos_iff_ne_zero.mp hu
  field_simp
  linarith

/-- Claim C1: decoding the encoded picking color of a valid vertex index `i`
yields fractional coordinates `(u, v)` with
`round (u * (uCount - 1)) = i % uCount` and
`round (v * (vCount - 1)) = i / uCount`. -/
theorem picking_round_trip (uCount vCount i : ℕ) (hu : 2 ≤ uCount)
    (hv : 2 ≤ vCount) (hi : i < uCount * vCount) :
    ∃ u v : ℚ,
      decodePickingColor (encodePickingColor uCount vCount i) =
        PickResult.hit u v ∧
      round (u * ((uCount : ℚ) - 1)) = ((i % uCount : ℕ) : ℤ) ∧
      round (v * ((vCount : ℚ) - 1)) = ((i / uCount : ℕ) : ℤ) := by
  have hu1 : ((uCount : ℚ) - 1) ≠ 0 := by
    have h2 : (2 : ℚ) ≤ (uCount : ℚ) := by exact_mod_cast hu
    intro h
    linarith
  have hv1 : ((vCount : ℚ) - 1) ≠ 0 := by
    have h2 : (2 : ℚ) ≤ (vCount : ℚ) := by exact_mod_cast hv
    intro h
    linarith
  have hdec : decodePickingColor (encodePickingColor uCount vCount i) =
      PickResult.hit
        (((i % uCount : ℕ) : ℚ) / ((uCount : ℚ) - 1) * 255 / 255)
        ((((i : ℚ) - ((i % uCount : ℕ) : ℚ)) / (uCount : ℚ)) /
          ((vCount : ℚ) - 1) * 255 / 255) := by
    simp [encodePickingColor, decodePickingColor]
  refine ⟨_, _, hdec, ?_, ?_⟩
  · have harg : ((i % uCount : ℕ) : ℚ) / ((uCount : ℚ) - 1) * 255 / 255 *
        ((uCount : ℚ) - 1) = ((i % uCount : ℕ) : ℚ) := by
      field_simp
      ring
    rw [harg, round_natCast]
  · rw [yIndex_cast uCount i (by omega)]
    have harg : ((i / uCount : ℕ) : ℚ) / ((vCount : ℚ) - 1) * 255 / 255 *
        ((vCount : ℚ) - 1) = ((i / uCount : ℕ) : ℚ) := by
      field_simp
      ring
    rw [harg, round_natCast]

/-- Witness for C1 at `uCount = 3`, `vCount = 2`, `i = 4`. -/
theorem picking_round_trip_witness :
    ∃ u v : ℚ,
      decodePickingColor (encodePickingColor 3 2 4) = PickResult.hit u v ∧
      round (u * (((3 : ℕ) : ℚ) - 1)) = ((4 % 3 : ℕ) : ℤ) ∧
      round (v * (((2 : ℕ) : ℚ) - 1)) = ((4 / 3 : ℕ) : ℤ) :=
  picking_round_trip 3 2 4 (by decide) (by decide) (by decide)

/-- Counterexample for C4 as stated: at `uCount = 3`, `vCount = 2`, `i = 1`
(so `uIndex = 1`), `encodePickingColor` returns first component
`1 / (3 - 1) * 255 = 255/2 = 127.5`, while the claim says it returns
`round (1 / (3 - 1) * 255) = 128`; the two differ. -/
theorem encodePickingColor_not_rounded :
    (encodePickingColor 3 2 1).1 = 255 / 2 ∧
    round ((1 : ℚ) / (((3 : ℕ) : ℚ) - 1) * 255) = 128 ∧
    (255 : ℚ) / 2 ≠ ((128 : ℤ) : ℚ) := by
  refine ⟨?_, ?_, ?_⟩
  · norm_num [encodePickingColor]
  · norm_num [round_eq]
  · norm_num

/-- Claim C4, amended: `encodePickingColor i` returns the exact (unrounded)
rationals `(uIndex/(uCount-1)*255, vIndex/(vCount-1)*255, 1)` where
`uIndex = i % uCount` and `vIndex = (i - uIndex)/uCount = i / uCount`;
the rounding to bytes happens only when `calculatePickingColors` stores
these values into the `Uint8ClampedArray` (clamp to `[0,255]`, ties to
even). -/
theorem encodePickingColor_formula (uCount vCount i : ℕ) (hu : 2 ≤ uCount)
    (hv : 2 ≤ vCount) (hi : i < uCount * vCount) :
    encodePickingColor uCount vCount i =
      (((i % uCount : ℕ) : ℚ) / ((uCount : ℚ) - 1) * 255,
       ((i / uCount : ℕ) : ℚ) / ((vCount : ℚ) - 1) * 255, 1) ∧
    (calculatePickingColors uCount vCount)[i]? =
      some (clampByte (((i % uCount : ℕ) : ℚ) / ((uCount : ℚ) - 1) * 255),
            clampByte (((i / uCount : ℕ) : ℚ) / ((vCount : ℚ) - 1) * 255),
            clampByte 1) := by
  have henc : encodePickingColor uCount vCount i =
      (((i % uCount : ℕ) : ℚ) / ((uCount : ℚ) - 1) * 255,
       ((i / uCount : ℕ) : ℚ) / ((vCount : ℚ) - 1) * 255, 1) := by
    rw [encodePickingColor]
    simp only [yIndex_cast uCount i (by omega)]
  refine ⟨henc, ?_⟩
  rw [calculatePickingColors]
  rw [List.getElem?_map, List.getElem?_range hi]
  simp only [Option.map_some']
  rw [henc]

/-- Witness for C4's amended theorem at `uCount = 2`, `vCount = 2`,
`i = 3`. -/
theorem encodePickingColor_formula_witness :
    encodePickingColor 2 2 3 =
      (((3 % 2 : ℕ) : ℚ) / (((2 : ℕ) : ℚ) - 1) * 255,
       ((3 / 2 : ℕ) : ℚ) / (((2 : ℕ) : ℚ) - 1) * 255, 1) ∧
    (calculatePickingColors 2 2)[3]? =
      some (clampByte (((3 % 2 : ℕ) : ℚ) / (((2 : ℕ) : ℚ) - 1) * 255),
            clampByte (((3 / 2 : ℕ) : ℚ) / (((2 : ℕ) : ℚ) - 1) * 255),
            clampByte 1) :=
  encodePickingColor_formula 2 2 3 (by decide) (by decide) (by decide)

/-- Pass 1 as a map over linear vertex indices: the nested loops (`vIndex`
outer, `uIndex` inner) produce entry `i` from `uIndex = i % uCount`,
`vIndex = i / uCount`. -/
theorem pass1_eq_map (gp : ℚ → ℚ → JSNum × JSNum × JSNum) (uCount vCount : ℕ) :
    pass1 gp uCount vCount =
      (List.range (vCount * uCount)).map fun i =>
        pass1Entry gp uCount vCount (i % uCount) (i / uCount) :=
  range_flatMap_map (fun v u => pass1Entry gp uCount vCount u v) vCount uCount

theorem pass1_getElem (gp : ℚ → ℚ → JSNum × JSNum × JSNum)
    (uCount vCount i : ℕ) (hi : i < uCount * vCount) :
    (pass1 gp uCount vCount)[i]? =
      some (pass1Entry gp uCount vCount (i % uCount) (i / uCount)) := by
  rw [pass1_eq_map, List.getElem?_map,
    List.getElem?_range (show i < vCount * uCount by
      rw [Nat.mul_comm vCount uCount]; exact hi), Option.map_some']

/-- The pass-1 entry of linear vertex `i`, written via its `getPosition`
sample. -/
theorem pass1Entry_sampleAt (gp : ℚ → ℚ → JSNum × JSNum × JSNum)
    (uCount vCount i : ℕ) :
    pass1Entry gp uCount vCount (i % uCount) (i / uCount) =
      { s0 := (sampleAt gp uCount vCount i).1.sanitize
        s1 := (sampleAt gp uCount vCount i).2.2.sanitize
        s2 := (sampleAt gp uCount vCount i).2.1.sanitize
        flag := if (sampleAt gp uCount vCount i).1.isFinite &&
            (sampleAt gp uCount vCount i).2.1.isFinite &&
            (sampleAt gp uCount vCount i).2.2.isFinite then 0 else 1 } := rfl

theorem positionsBuffer_eq (gp : ℚ → ℚ → JSNum × JSNum × JSNum)
    (uCount vCount : ℕ) (fX fY fZ : Extent → ℚ → ℚ) :
    positionsBuffer gp uCount vCount fX fY fZ =
      (pass1 gp uCount vCount).map
        (pass2Entry
          (fX (axisExtent ((pass1 gp uCount vCount).map PosEntry.s0)))
          (fY (axisExtent ((pass1 gp uCount vCount).map PosEntry.s2)))
          (fZ (axisExtent ((pass1 gp uCount vCount).map PosEntry.s1)))) := rfl

theorem calculatePositions_log_eq (gp : ℚ → ℚ → JSNum × JSNum × JSNum)
    (uCount vCount : ℕ) (fX fY fZ : Extent → ℚ → ℚ) :
    (calculatePositions gp uCount vCount fX fY fZ).2 =
      [(Axis.X, axisExtent ((pass1 gp uCount vCount).map PosEntry.s0)),
       (Axis.Y, axisExtent ((pass1 gp uCount vCount).map PosEntry.s2)),
       (Axis.Z, axisExtent ((pass1 gp uCount vCount).map PosEntry.s1))] := rfl

/-- A flagged (invalid) pass-1 entry passes through pass 2 unchanged. -/
theorem positionsBuffer_skips_flagged (gp : ℚ → ℚ → JSNum × JSNum × JSNum)
    (uCount vCount : ℕ) (fX fY fZ : Extent → ℚ → ℚ) :
    ∀ (j : ℕ) (e : PosEntry), (pass1 gp uCount vCount)[j]? = some e →
      e.flag ≠ 0 → (positionsBuffer gp uCount vCount fX fY fZ)[j]? = some e := by
  intro j e hj hflag
  rw [positionsBuffer_eq, List.getElem?_map, hj, Option.map_some',
    pass2Entry, if_neg hflag]

/-- The final buffer entry of a vertex whose sample has a non-finite axis:
sanitized coordinates (swapped storage order) and validity flag 1. -/
theorem positionsBuffer_invalid_getElem (gp : ℚ → ℚ → JSNum × JSNum × JSNum)
    (uCount vCount : ℕ) (fX fY fZ : Extent → ℚ → ℚ) (i : ℕ) (x y z : JSNum)
    (hi : i < uCount * vCount) (hs : sampleAt gp uCount vCount i = (x, y, z))
    (hnf : (x.isFinite && y.isFinite && z.isFinite) = false) :
    (positionsBuffer gp uCount vCount fX fY fZ)[i]? =
      some { s0 := x.sanitize, s1 := z.sanitize, s2 := y.sanitize, flag := 1 } := by
  have hent : pass1Entry gp uCount vCount (i % uCount) (i / uCount) =
      { s0 := x.sanitize, s1 := z.sanitize, s2 := y.sanitize, flag := 1 } := by
    rw [pass1Entry_sampleAt, hs]
    simp [hnf]
  have h1 : (pass1 gp uCount vCount)[i]? =
      some { s0 := x.sanitize, s1 := z.sanitize, s2 := y.sanitize, flag := 1 } := by
    rw [pass1_getElem gp uCount vCount i hi, hent]
  exact positionsBuffer_skips_flagged gp uCount vCount fX fY fZ i _ h1 (by norm_num)

/-- Claim C6: if `getPosition` returns a non-finite value on any axis for
vertex `i`, the stored validity flag for `i` is 1 and the stored
coordinates are the sanitized ones (0 for each non-finite axis); and the
rescaling pass applies the scale functions only to vertices whose flag is
0, leaving every flagged vertex exactly at its pass-1 (sanitized)
values. -/
theorem invalid_vertex_sanitized (gp : ℚ → ℚ → JSNum × JSNum × JSNum)
    (uCount vCount : ℕ) (fX fY fZ : Extent → ℚ → ℚ) (i : ℕ) (x y z : JSNum)
    (hi : i < uCount * vCount) (hs : sampleAt gp uCount vCount i = (x, y, z))
    (hnf : (x.isFinite && y.isFinite && z.isFinite) = false) :
    (positionsBuffer gp uCount vCount fX fY fZ)[i]? =
      some { s0 := x.sanitize, s1 := z.sanitize, s2 := y.sanitize, flag := 1 } ∧
    (x.isFinite = false → x.sanitize = 0) ∧
    (y.isFinite = false → y.sanitize = 0) ∧
    (z.isFinite = false → z.sanitize = 0) ∧
    ∀ (j : ℕ) (e : PosEntry), (pass1 gp uCount vCount)[j]? = some e →
      e.flag ≠ 0 → (positionsBuffer gp uCount vCount fX fY fZ)[j]? = some e := by
  refine ⟨positionsBuffer_invalid_getElem gp uCount vCount fX fY fZ i x y z hi hs hnf,
    ?_, ?_, ?_, positionsBuffer_skips_flagged gp uCount vCount fX fY fZ⟩
  · intro hx
    cases x <;> simp_all [JSNum.isFinite, JSNum.sanitize]
  · intro hy
    cases y <;> simp_all [JSNum.isFinite, JSNum.sanitize]
  · intro hz
    cases z <;> simp_all [JSNum.isFinite, JSNum.sanitize]

/-- Witness for C6: a 2×2 grid whose samples have a NaN x-axis. -/
theorem invalid_vertex_sanitized_witness :
    (positionsBuffer (fun _ _ => (JSNum.nan, JSNum.num 5, JSNum.num 7)) 2 2
        (fun _ q => q) (fun _ q => q) (fun _ q => q))[0]? =
      some { s0 := JSNum.nan.sanitize, s1 := (JSNum.num 7).sanitize,
             s2 := (JSNum.num 5).sanitize, flag := 1 } ∧
    (JSNum.nan.isFinite = false → JSNum.nan.sanitize = 0) ∧
    ((JSNum.num 5).isFinite = false → (JSNum.num 5).sanitize = 0) ∧
    ((JSNum.num 7).isFinite = false → (JSNum.num 7).sanitize = 0) ∧
    ∀ (j : ℕ) (e : PosEntry),
      (pass1 (fun _ _ => (JSNum.nan, JSNum.num 5, JSNum.num 7)) 2 2)[j]? =
        some e →
      e.flag ≠ 0 →
      (positionsBuffer (fun _ _ => (JSNum.nan, JSNum.num 5, JSNum.num 7)) 2 2
        (fun _ q => q) (fun _ q => q) (fun _ q => q))[j]? = some e :=
  invalid_vertex_sanitized (fun _ _ => (JSNum.nan, JSNum.num 5, JSNum.num 7))
    2 2 (fun _ q => q) (fun _ q => q) (fun _ q => q) 0
    JSNum.nan (JSNum.num 5) (JSNum.num 7) (by decide) rfl rfl

/-- Folding `Math.min` from a finite accumulator stays finite and agrees
with the rational fold. -/
theorem foldl_jsMin_num (t : List ℚ) (a : ℚ) :
    t.foldl (fun acc q => jsMin acc (JSNum.num q)) (JSNum.num a) =
      JSNum.num (t.foldl min a) := by
  induction t generalizing a with
  | nil => rfl
  | cons b s ih => simpa [jsMin] using ih (min a b)

theorem foldl_jsMax_num (t : List ℚ) (a : ℚ) :
    t.foldl (fun acc q => jsMax acc (JSNum.num q)) (JSNum.num a) =
      JSNum.num (t.foldl max a) := by
  induction t generalizing a with
  | nil => rfl
  | cons b s ih => simpa [jsMax] using ih (max a b)

/-- On a nonempty value list, the `Infinity`-seeded fold of
`calculatePositions` computes exactly the list minimum / maximum. -/
theorem axisExtent_minmax (a : ℚ) (t : List ℚ) :
    axisExtent (a :: t) =
      { min := JSNum.num (t.foldl min a), max := JSNum.num (t.foldl max a) } ∧
    (a :: t).min? = some (t.foldl min a) ∧
    (a :: t).max? = some (t.foldl max a) := by
  refine ⟨?_, rfl, rfl⟩
  rw [axisExtent]
  have h1 : jsMin JSNum.posInf (JSNum.num a) = JSNum.num a := rfl
  have h2 : jsMax JSNum.negInf (JSNum.num a) = JSNum.num a := rfl
  simp only [List.foldl_cons, h1, h2, foldl_jsMin_num, foldl_jsMax_num]

/-- The x-axis extent source values: sanitized x samples in vertex order. -/
theorem pass1_map_s0 (gp : ℚ → ℚ → JSNum × JSNum × JSNum) (uCount vCount : ℕ) :
    (pass1 gp uCount vCount).map PosEntry.s0 =
      (List.range (vCount * uCount)).map fun i =>
        (sampleAt gp uCount vCount i).1.sanitize := by
  rw [pass1_eq_map, List.map_map]
  exact List.map_congr_left fun i _ => rfl

/-- The y-axis extent source values (stored slot 2): sanitized y samples. -/
theorem pass1_map_s2 (gp : ℚ → ℚ → JSNum × JSNum × JSNum) (uCount vCount : ℕ) :
    (pass1 gp uCount vCount).map PosEntry.s2 =
      (List.range (vCount * uCount)).map fun i =>
        (sampleAt gp uCount vCount i).2.1.sanitize := by
  rw [pass1_eq_map, List.map_map]
  exact List.map_congr_left fun i _ => rfl

/-- The z-axis extent source values (stored slot 1): sanitized z samples. -/
theorem pass1_map_s1 (gp : ℚ → ℚ → JSNum × JSNum × JSNum) (uCount vCount : ℕ) :
    (pass1 gp uCount vCount).map PosEntry.s1 =
      (List.range (vCount * uCount)).map fun i =>
        (sampleAt gp uCount vCount i).2.2.sanitize := by
  rw [pass1_eq_map, List.map_map]
  exact List.map_congr_left fun i _ => rfl

/-- Claim C8: in one positions recomputation the per-axis extents are the
min/max over the sanitized (non-finite replaced by 0) sample values, and
the three scale factories are invoked exactly once each — the factory-call
log is exactly `[(X, xExtent), (Y, yExtent), (Z, zExtent)]` — with the
accumulated `{min, max}` of their axis. -/
theorem extent_accumulation_scale_calls (gp : ℚ → ℚ → JSNum × JSNum × JSNum)
    (uCount vCount : ℕ) (fX fY fZ : Extent → ℚ → ℚ)
    (hu : 2 ≤ uCount) (hv : 2 ≤ vCount) :
    ∃ xm xM ym yM zm zM : ℚ,
      ((List.range (uCount * vCount)).map fun i =>
        (sampleAt gp uCount vCount i).1.sanitize).min? = some xm ∧
      ((List.range (uCount * vCount)).map fun i =>
        (sampleAt gp uCount vCount i).1.sanitize).max? = some xM ∧
      ((List.range (uCount * vCount)).map fun i =>
        (sampleAt gp uCount vCount i).2.1.sanitize).min? = some ym ∧
      ((List.range (uCount * vCount)).map fun i =>
        (sampleAt gp uCount vCount i).2.1.sanitize).max? = some yM ∧
      ((List.range (uCount * vCount)).map fun i =>
        (sampleAt gp uCount vCount i).2.2.sanitize).min? = some zm ∧
      ((List.range (uCount * vCount)).map fun i =>
        (sampleAt gp uCount vCount i).2.2.sanitize).max? = some zM ∧
      (calculatePositions gp uCount vCount fX fY fZ).2 =
        [(Axis.X, { min := JSNum.num xm, max := JSNum.num xM }),
         (Axis.Y, { min := JSNum.num ym, max := JSNum.num yM }),
         (Axis.Z, { min := JSNum.num zm, max := JSNum.num zM })] := by
  rw [Nat.mul_comm uCount vCount]
  have hlen : ∀ g : ℕ → ℚ, ((List.range (vCount * uCount)).map g) ≠ [] := by
    intro g h
    have := congrArg List.length h
    simp [List.length_range] at this
    omega
  obtain ⟨aX, tX, hX⟩ := List.exists_cons_of_ne_nil
    (hlen fun i => (sampleAt gp uCount vCount i).1.sanitize)
  obtain ⟨aY, tY, hY⟩ := List.exists_cons_of_ne_nil
    (hlen fun i => (sampleAt gp uCount vCount i).2.1.sanitize)
  obtain ⟨aZ, tZ, hZ⟩ := List.exists_cons_of_ne_nil
    (hlen fun i => (sampleAt gp uCount vCount i).2.2.sanitize)
  refine ⟨tX.foldl min aX, tX.foldl max aX, tY.foldl min aY, tY.foldl max aY,
    tZ.foldl min aZ, tZ.foldl max aZ, ?_, ?_, ?_, ?_, ?_, ?_, ?_⟩
  · rw [hX]; exact (axisExtent_minmax aX tX).2.1
  · rw [hX]; exact (axisExtent_minmax aX tX).2.2
  · rw [hY]; exact (axisExtent_minmax aY tY).2.1
  · rw [hY]; exact (axisExtent_minmax aY tY).2.2
  · rw [hZ]; exact (axisExtent_minmax aZ tZ).2.1
  · rw [hZ]; exact (axisExtent_minmax aZ tZ).2.2
  · rw [calculatePositions_log_eq, pass1_map_s0, pass1_map_s2, pass1_map_s1,
      hX, hY, hZ, (axisExtent_minmax aX tX).1, (axisExtent_minmax aY tY).1,
      (axisExtent_minmax aZ tZ).1]

/-- Counterexample for C7 as stated: with non-identity scales
(`scale(q) = q + 100`) on a 2×2 grid sampled constantly at world
coordinates `(1, 2, 3)`, `getColor` is called at vertex 0 with
`(101, 102, 103)` — the scaled render-space coordinates — which differ
from the sampled world-space `(1, 2, 3)`. -/
theorem color_args_not_sampled_world :
    (calculateColors
        (fun _ _ _ => (JSNum.num 0, JSNum.num 0, JSNum.num 0, JSNum.num 255))
        (positionsBuffer (fun _ _ => (JSNum.num 1, JSNum.num 2, JSNum.num 3))
          2 2 (fun _ q => q + 100) (fun _ q => q + 100)
          (fun _ q => q + 100))).2[0]? =
      some (101, 102, 103) ∧
    (((101 : ℚ), (102 : ℚ), (103 : ℚ)) : ℚ × ℚ × ℚ) ≠ (1, 2, 3) := by
  constructor
  · norm_num [calculateColors, positionsBuffer, calculatePositions, pass1,
      pass1Entry, pass2Entry, axisExtent, jsMin, jsMax, JSNum.sanitize,
      JSNum.isFinite, List.range_succ]
  · simp only [ne_eq, Prod.mk.injEq, not_and]
    norm_num

/-- Claim C7, amended: for every vertex `i` of the positions buffer,
`calculateColors` calls `getColor` with the vertex's stored first component
as `x`, stored third component as `y` and stored second component as `z`
(undoing the y/z storage swap); for vertices whose validity flag is 0 these
are the scaled render-space coordinates, not the raw samples. -/
theorem calculateColors_args (gc : ℚ → ℚ → ℚ → JSNum × JSNum × JSNum × JSNum)
    (positions : List PosEntry) (i : ℕ) (e : PosEntry)
    (he : positions[i]? = some e) :
    (calculateColors gc positions).2[i]? = some (e.s0, e.s2, e.s1) := by
  show (positions.map fun e => (e.s0, e.s2, e.s1))[i]? = some (e.s0, e.s2, e.s1)
  rw [List.getElem?_map, he, Option.map_some']

/-- Witness for C7's amended theorem on a one-entry buffer. -/
theorem calculateColors_args_witness :
    (calculateColors
        (fun _ _ _ => (JSNum.num 0, JSNum.num 0, JSNum.num 0, JSNum.num 255))
        [{ s0 := 1, s1 := 2, s2 := 3, flag := 0 }]).2[0]? =
      some (PosEntry.s0 { s0 := 1, s1 := 2, s2 := 3, flag := 0 },
            PosEntry.s2 { s0 := 1, s1 := 2, s2 := 3, flag := 0 },
            PosEntry.s1 { s0 := 1, s1 := 2, s2 := 3, flag := 0 }) :=
  calculateColors_args
    (fun _ _ _ => (JSNum.num 0, JSNum.num 0, JSNum.num 0, JSNum.num 255))
    [{ s0 := 1, s1 := 2, s2 := 3, flag := 0 }] 0
    { s0 := 1, s1 := 2, s2 := 3, flag := 0 } rfl

/-- Claim C10: a vertex `i` whose sample has a non-finite axis is skipped by
the rescaling pass, so `getColor` receives its sanitized, unscaled
coordinates in original axis order — `(x.sanitize, y.sanitize, z.sanitize)`,
i.e. 0 on each non-finite axis and the raw sample on the finite axes — and
its stored color entry is derived from exactly those coordinates. -/
theorem invalid_vertex_color_args (gp : ℚ → ℚ → JSNum × JSNum × JSNum)
    (uCount vCount : ℕ) (fX fY fZ : Extent → ℚ → ℚ)
    (gc : ℚ → ℚ → ℚ → JSNum × JSNum × JSNum × JSNum) (i : ℕ) (x y z : JSNum)
    (hi : i < uCount * vCount) (hs : sampleAt gp uCount vCount i = (x, y, z))
    (hnf : (x.isFinite && y.isFinite && z.isFinite) = false) :
    (calculateColors gc (positionsBuffer gp uCount vCount fX fY fZ)).2[i]? =
      some (x.sanitize, y.sanitize, z.sanitize) ∧
    (calculateColors gc (positionsBuffer gp uCount vCount fX fY fZ)).1[i]? =
      some (colorEntryOf (gc x.sanitize y.sanitize z.sanitize)) := by
  have hbuf : (positionsBuffer gp uCount vCount fX fY fZ)[i]? =
      some { s0 := x.sanitize, s1 := z.sanitize, s2 := y.sanitize, flag := 1 } :=
    positionsBuffer_invalid_getElem gp uCount vCount fX fY fZ i x y z hi hs hnf
  constructor
  · show ((positionsBuffer gp uCount vCount fX fY fZ).map
        fun e => (e.s0, e.s2, e.s1))[i]? = some (x.sanitize, y.sanitize, z.sanitize)
    rw [List.getElem?_map, hbuf, Option.map_some']
  · show ((positionsBuffer gp uCount vCount fX fY fZ).map
        fun e => colorEntryOf (gc e.s0 e.s2 e.s1))[i]? =
      some (colorEntryOf (gc x.sanitize y.sanitize z.sanitize))
    rw [List.getElem?_map, hbuf, Option.map_some']

/-- Witness for C10: a 2×2 grid with a NaN y-axis sample. -/
theorem invalid_vertex_color_args_witness :
    (calculateColors (fun a b c => (JSNum.num a, JSNum.num b, JSNum.num c, JSNum.num 255))
        (positionsBuffer (fun _ _ => (JSNum.num 4, JSNum.nan, JSNum.num 6)) 2 2
          (fun _ q => q) (fun _ q => q) (fun _ q => q))).2[0]? =
      some ((JSNum.num 4).sanitize, JSNum.nan.sanitize, (JSNum.num 6).sanitize) ∧
    (calculateColors (fun a b c => (JSNum.num a, JSNum.num b, JSNum.num c, JSNum.num 255))
        (positionsBuffer (fun _ _ => (JSNum.num 4, JSNum.nan, JSNum.num 6)) 2 2
          (fun _ q => q) (fun _ q => q) (fun _ q => q))).1[0]? =
      some (colorEntryOf ((fun a b c => (JSNum.num a, JSNum.num b, JSNum.num c, JSNum.num 255))
        (JSNum.num 4).sanitize JSNum.nan.sanitize (JSNum.num 6).sanitize)) :=
  invalid_vertex_color_args (fun _ _ => (JSNum.num 4, JSNum.nan, JSNum.num 6))
    2 2 (fun _ q => q) (fun _ q => q) (fun _ q => q)
    (fun a b c => (JSNum.num a, JSNum.num b, JSNum.num c, JSNum.num 255)) 0
    (JSNum.num 4) JSNum.nan (JSNum.num 6) (by decide) rfl rfl

/-- Witness for C8: a 2×2 grid sampled constantly at `(1, 2, 3)`, identity
scales. -/
theorem extent_accumulation_scale_calls_witness :
    ∃ xm xM ym yM zm zM : ℚ,
      ((List.range (2 * 2)).map fun i =>
        (sampleAt (fun _ _ => (JSNum.num 1, JSNum.num 2, JSNum.num 3))
          2 2 i).1.sanitize).min? = some xm ∧
      ((List.range (2 * 2)).map fun i =>
        (sampleAt (fun _ _ => (JSNum.num 1, JSNum.num 2, JSNum.num 3))
          2 2 i).1.sanitize).max? = some xM ∧
      ((List.range (2 * 2)).map fun i =>
        (sampleAt (fun _ _ => (JSNum.num 1, JSNum.num 2, JSNum.num 3))
          2 2 i).2.1.sanitize).min? = some ym ∧
      ((List.range (2 * 2)).map fun i =>
        (sampleAt (fun _ _ => (JSNum.num 1, JSNum.num 2, JSNum.num 3))
          2 2 i).2.1.sanitize).max? = some yM ∧
      ((List.range (2 * 2)).map fun i =>
        (sampleAt (fun _ _ => (JSNum.num 1, JSNum.num 2, JSNum.num 3))
          2 2 i).2.2.sanitize).min? = some zm ∧
      ((List.range (2 * 2)).map fun i =>
        (sampleAt (fun _ _ => (JSNum.num 1, JSNum.num 2, JSNum.num 3))
          2 2 i).2.2.sanitize).max? = some zM ∧
      (calculatePositions (fun _ _ => (JSNum.num 1, JSNum.num 2, JSNum.num 3))
        2 2 (fun _ q => q) (fun _ q => q) (fun _ q => q)).2 =
        [(Axis.X, { min := JSNum.num xm, max := JSNum.num xM }),
         (Axis.Y, { min := JSNum.num ym, max := JSNum.num yM }),
         (Axis.Z, { min := JSNum.num zm, max := JSNum.num zM })] :=
  extent_accumulation_scale_calls
    (fun _ _ => (JSNum.num 1, JSNum.num 2, JSNum.num 3)) 2 2
    (fun _ q => q) (fun _ q => q) (fun _ q => q) (by decide) (by decide)

/-- Claim C9: a change of `uCount` or `vCount` marks all four attributes
dirty (so all four are recomputed); an accessor-only change of `getColor`
with unchanged dimensions marks dirty — and hence recomputes — exactly the
`colors` attribute, leaving `indices`, `positions` and `pickingColors`
buffers untouched. -/
theorem invalidation_scoping (oldP newP : SLProps) :
    ((oldP.uCount ≠ newP.uCount ∨ oldP.vCount ≠ newP.vCount) →
      ∀ a : Attr, dirtyAfterUpdate oldP newP [] a = true) ∧
    (oldP.uCount = newP.uCount → oldP.vCount = newP.vCount →
      dirtyAfterUpdate oldP newP [Accessor.getColor] Attr.colors = true ∧
      dirtyAfterUpdate oldP newP [Accessor.getColor] Attr.indices = false ∧
      dirtyAfterUpdate oldP newP [Accessor.getColor] Attr.positions = false ∧
      dirtyAfterUpdate oldP newP [Accessor.getColor] Attr.pickingColors = false) := by
  constructor
  · intro hdim a
    have hd : dimsChanged oldP newP = true := by
      rcases hdim with h | h <;> simp [dimsChanged, h]
    rw [dirtyAfterUpdate, if_pos hd]
  · intro hu hv
    have hd : dimsChanged oldP newP = false := by
      simp [dimsChanged, hu, hv]
    refine ⟨?_, ?_, ?_, ?_⟩ <;>
      simp [dirtyAfterUpdate, hd, attrAccessors]

/-- Witness for C9 at the spec's scenario: dimensions `(10,10) → (20,10)`
versus a `getColor`-only change at unchanged `(10,10)`. -/
theorem invalidation_scoping_witness :
    (∀ a : Attr, dirtyAfterUpdate ⟨10, 10⟩ ⟨20, 10⟩ [] a = true) ∧
    (dirtyAfterUpdate ⟨10, 10⟩ ⟨10, 10⟩ [Accessor.getColor] Attr.colors = true ∧
     dirtyAfterUpdate ⟨10, 10⟩ ⟨10, 10⟩ [Accessor.getColor] Attr.indices = false ∧
     dirtyAfterUpdate ⟨10, 10⟩ ⟨10, 10⟩ [Accessor.getColor] Attr.positions = false ∧
     dirtyAfterUpdate ⟨10, 10⟩ ⟨10, 10⟩ [Accessor.getColor] Attr.pickingColors = false) :=
  ⟨(invalidation_scoping ⟨10, 10⟩ ⟨20, 10⟩).1 (by decide),
   (invalidation_scoping ⟨10, 10⟩ ⟨10, 10⟩).2 rfl rfl⟩
